import Mathlib

/-!
Verification of the tsv core: route reconciliation, health monitoring,
and connection relaying.

A shallow embedding of the core logic of the `tsv` relay: the route
reconciler (`routesDifferent`, `UpdateRoutes`), the periodic domain
resolver (`resolveDomains`, `resolveAndUpdate`), the WireGuard health
monitor (`healthCheck` loop, `restartDevice`, `checkConnectivity`),
configuration parsing (`parseInterfaceAddresses`), and the per-connection
relay handler (`handleConnection`), together with theorems about their
behaviour.

External collaborators (DNS lookups, the overlay control plane, the HTTP
client, the address parsers of the standard library, and the byte pumps)
are modelled as explicit parameters: an oracle function or an outcome
value supplied to each embedded definition.
-/

/-- Model of `netip.Addr`: an IP address tagged as v4 or v6, with its
numeric value. Equality is structural, as in Go. -/
structure Addr where
  is4 : Bool
  val : Nat
deriving DecidableEq

/-- Model of `netip.Prefix`: an address plus a mask bit length.
Equality is structural (address + length). -/
structure Pfx where
  addr : Addr
  bits : Nat
deriving DecidableEq

/-- Function `routesDifferent` from `tsnet.go`: returns true when the new routes
differ from the old ones — a length pre-check, then a membership check of
every new route against a map built over the old routes (here:
`List.contains`, which is exactly the membership the Go map encodes). -/
def routesDifferent (old new : List Pfx) : Bool :=
  if old.length != new.length then true
  else new.any (fun r => !(old.contains r))

/-- Reconciler-side state of `TailscaleNode` plus the observable effects on
the control plane: `routes` is the locally held `tn.routes`, `cpRoutes`
the control plane's externally visible advertised set, and `pushCount`
the number of control-plane calls (`setAdvertisedRoutes` attempts) made. -/
structure NodeState where
  routes : List Pfx
  cpRoutes : List Pfx
  pushCount : Nat
deriving DecidableEq

/-- Model of `setAdvertisedRoutes` from `tsnet.go`: one control-plane call.
The environment `pushOk` decides whether the `EditPrefs` call succeeds;
on success the control plane adopts the pushed routes, on failure it is
left unchanged. Returns the new state and whether the call succeeded. -/
def setAdvertisedRoutes (pushOk : List Pfx → Bool) (routes : List Pfx)
    (s : NodeState) : NodeState × Bool :=
  if pushOk routes then
    ({ s with cpRoutes := routes, pushCount := s.pushCount + 1 }, true)
  else
    ({ s with pushCount := s.pushCount + 1 }, false)

/-- Function `UpdateRoutes` from `tsnet.go`: skip when the routes are not different;
otherwise remember the old routes, optimistically adopt the new ones, push
them to the control plane, and roll the local value back on push failure. -/
def UpdateRoutes (pushOk : List Pfx → Bool) (s : NodeState)
    (routes : List Pfx) : NodeState :=
  if !(routesDifferent s.routes routes) then s
  else
    let oldRoutes := s.routes
    let s1 := { s with routes := routes }
    let res := setAdvertisedRoutes pushOk routes s1
    if res.2 then res.1
    else { res.1 with routes := oldRoutes }

/-- Outcome of one DNS lookup (`net.DefaultResolver.LookupIP`) for a domain:
an error, or a list of addresses. The `netip.AddrFromSlice` conversion of
each returned IP is modelled as the already-converted address. -/
abbrev Resolver := String → Except Unit (List Addr)

/-- Insertion into the deduplicating address map of `resolveDomains`
(`ipMap[addr] = true`), keeping first-insertion order for the result. -/
def insertAddr (acc : List Addr) (a : Addr) : List Addr :=
  if acc.contains a then acc else acc ++ [a]

/-- The deduplicated addresses gathered by `resolveDomains`: each domain is
looked up independently, a failed domain is logged and skipped, and every
address of a successful lookup is added to the map. -/
def resolvedAddrs (resolve : Resolver) (domains : List String) : List Addr :=
  domains.foldl (fun acc d =>
    match resolve d with
    | .error _ => acc
    | .ok ips => ips.foldl insertAddr acc) []

/-- Function `resolveDomains` from `tsnet.go`: the deduplicated addresses, each turned
into a singleton prefix with full-width mask (32 for v4, 128 for v6). The
function always returns `ok` — no code path produces its error result. -/
def resolveDomains (resolve : Resolver) (domains : List String) :
    Except Unit (List Pfx) :=
  .ok ((resolvedAddrs resolve domains).map
    (fun a => if a.is4 then Pfx.mk a 32 else Pfx.mk a 128))

/-- Function `resolveAndUpdate` from `tsnet.go`: on a resolution error, log and return
without calling `updateFunc`; otherwise deliver the prefixes to it. The
state `σ` is whatever state the consumer (`UpdateRoutes`) carries. -/
def resolveAndUpdate {σ : Type} (resolve : Resolver) (domains : List String)
    (updateFunc : List Pfx → σ → σ) (s : σ) : σ :=
  match resolveDomains resolve domains with
  | .error _ => s
  | .ok pfxs => updateFunc pfxs s

/-- The mutable counters of `WireGuardClient` touched by the health monitor,
plus the observable number of `restartDevice` invocations. -/
structure HealthState where
  consecutiveFailures : Nat
  failureCount : Nat
  restarts : Nat
deriving DecidableEq

/-- Counter state of a freshly created `WireGuardClient`. -/
def initialHealth : HealthState := ⟨0, 0, 0⟩

/-- Function `restartDevice`: brings the device down, pauses, brings it back up —
neither step reports an outcome — and resets `consecutiveFailures` to 0
unconditionally. -/
def restartDevice (s : HealthState) : HealthState :=
  { s with restarts := s.restarts + 1, consecutiveFailures := 0 }

/-- One `ticker.C` iteration of the `healthCheck` loop, given the outcome
`ok` of `checkConnectivity`: on failure increment both counters and, when
`consecutiveFailures` has reached 3, restart the device; on success reset
`consecutiveFailures`. -/
def healthTick (s : HealthState) (ok : Bool) : HealthState :=
  if !ok then
    let s1 := { s with consecutiveFailures := s.consecutiveFailures + 1,
                       failureCount := s.failureCount + 1 }
    if 3 ≤ s1.consecutiveFailures then restartDevice s1 else s1
  else { s with consecutiveFailures := 0 }

/-- The probe `healthCheck` runs before entering its loop: it updates the
counters exactly like a tick but performs no threshold check. -/
def healthFirstProbe (s : HealthState) (ok : Bool) : HealthState :=
  if !ok then { s with consecutiveFailures := s.consecutiveFailures + 1,
                       failureCount := s.failureCount + 1 }
  else { s with consecutiveFailures := 0 }

/-- A full run of `healthCheck` from a fresh client: the initial probe with
outcome `firstOk`, then one tick per element of `ticks`. -/
def healthRun (firstOk : Bool) (ticks : List Bool) : HealthState :=
  ticks.foldl healthTick (healthFirstProbe initialHealth firstOk)

/-- Function `checkConnectivity` from the WireGuard client: `reqOk` models whether
`http.NewRequestWithContext` succeeds, `doResult` models `client.Do` — an
error, or a response with the given status code. The probe passes exactly
on status 204 or 200; every other outcome returns false. -/
def checkConnectivity (reqOk : Bool) (doResult : Except Unit Nat) : Bool :=
  if !reqOk then false
  else
    match doResult with
    | .error _ => false
    | .ok status => status == 204 || status == 200

/-- The fallback interface address `netip.MustParseAddr("10.0.0.2")`
(10.0.0.2 as a v4 address value). -/
def defaultIfaceAddr : Addr := ⟨true, 167772162⟩

/-- Strings handled by the configuration parser, as character lists (so that
the Go standard-library helpers below are directly executable). -/
abbrev Str := List Char

/-- Model of `strings.TrimSpace`: drop leading and trailing whitespace. -/
def trimSpace (s : Str) : Str :=
  ((s.dropWhile Char.isWhitespace).reverse.dropWhile Char.isWhitespace).reverse

/-- Model of `strings.Split(s, ",")`: split at every comma; consecutive
commas yield empty entries, and the empty string yields one empty entry. -/
def splitComma (s : Str) : List Str :=
  match s with
  | [] => [[]]
  | c :: rest =>
    match splitComma rest with
    | [] => [[]]
    | hd :: tl => if c = ',' then [] :: hd :: tl else (c :: hd) :: tl

/-- The loop body of `parseInterfaceAddresses` from the WireGuard config:
trim the entry, skip it when blank, otherwise parse it as a prefix
(keeping only the prefix's address) and fall back to parsing it as a bare
address, failing with an error when both parses fail. `parsePfx` and
`parseAddr` model `netip.ParsePrefix` and `netip.ParseAddr`. -/
def ifaceEntryStep (parsePfx : Str → Option Pfx)
    (parseAddr : Str → Option Addr) (acc : List Addr) (entry : Str) :
    Except Str (List Addr) :=
  let entry := trimSpace entry
  if entry = [] then Except.ok acc
  else
    match parsePfx entry with
    | some p => Except.ok (acc ++ [p.addr])
    | none =>
      match parseAddr entry with
      | some a => Except.ok (acc ++ [a])
      | none => Except.error ("invalid interface address ".data ++ entry)

/-- Function `parseInterfaceAddresses`: the surrounding function. When the
configured `address` string is nonempty, split it on commas and run
`ifaceEntryStep` over the entries; when no addresses result (empty string
or only blank entries), return the single default 10.0.0.2 with no
error. -/
def parseInterfaceAddresses (parsePfx : Str → Option Pfx)
    (parseAddr : Str → Option Addr) (address : Str) :
    Except Str (List Addr) :=
  let parsed : Except Str (List Addr) :=
    if address ≠ [] then
      (splitComma address).foldlM (ifaceEntryStep parsePfx parseAddr) []
    else Except.ok []
  match parsed with
  | .error e => .error e
  | .ok l => .ok (if l.isEmpty then [defaultIfaceAddr] else l)

/-- One execution of `handleConnection` from `proxy.go`, abstracted over the
environment: whether the WireGuard dial succeeded, and the times at which
the two byte pumps would finish on their own — `t1` for the
client-to-server copy (inbound to outbound), `t2` for the server-to-client
copy (outbound to inbound), `none` meaning the copy never finishes by
itself. -/
structure RelayRun where
  dialOk : Bool
  t1 : Option Nat
  t2 : Option Nat
deriving DecidableEq

/-- The relay's idle budget, `5 * time.Minute`, in seconds. -/
def idleTimeout : Nat := 300

/-- Whether the `select` in `handleConnection` takes the `time.After`
branch: the `done` channel is closed by the server-to-client pump alone,
so the timer fires exactly when that pump has not finished within the
idle budget. -/
def relayTimedOut (r : RelayRun) : Bool :=
  match r.t2 with
  | none => true
  | some t => idleTimeout < t

/-- The time at which `handleConnection` returns after a successful dial:
the earlier of the `done` close (the server-to-client pump finishing) and
the 5-minute timer. -/
def relayReturnTime (r : RelayRun) : Nat :=
  match r.t2 with
  | none => idleTimeout
  | some t => min t idleTimeout

/-- The return time the specification describes for the relay: both pumps
complete, or the idle timeout elapses without both having completed,
whichever is first. Stated from the spec's words, for comparison with
`relayReturnTime`. -/
def relayReturnTimeSpec (r : RelayRun) : Nat :=
  match r.t1, r.t2 with
  | some a, some b => min (max a b) idleTimeout
  | _, _ => idleTimeout

/-- The two connections of a relay. -/
inductive ConnSide where
  | client
  | server
deriving DecidableEq

/-- The sequence of `Close` calls `handleConnection` performs, in order. On
dial failure only the deferred `clientConn.Close()` runs. Otherwise, the
timeout branch of the `select` closes both connections explicitly, and
then the deferred closes run in LIFO order: the `serverConn` deferred
close, then the `clientConn` one. -/
def relayCloses (r : RelayRun) : List ConnSide :=
  if !r.dialOk then [ConnSide.client]
  else
    (if relayTimedOut r then [ConnSide.client, ConnSide.server] else [])
      ++ [ConnSide.server, ConnSide.client]

/-- A sample prefix (1.0.0.1/32) for concrete instantiations. -/
def pfxA : Pfx := ⟨⟨true, 1⟩, 32⟩

/-- A second, distinct sample prefix (2.0.0.2/32). -/
def pfxB : Pfx := ⟨⟨true, 2⟩, 32⟩

/-- Unfolding of `routesDifferent` returning false: the lengths agree and
every new route is a member of the old ones. -/
lemma routesDifferent_eq_false_iff (A B : List Pfx) :
    routesDifferent A B = false ↔ (A.length = B.length ∧ ∀ b ∈ B, b ∈ A) := by
  simp [routesDifferent, List.any_eq_false]

/-- Comparing a route list with itself never reports a difference. -/
lemma routesDifferent_self (A : List Pfx) : routesDifferent A A = false := by
  rw [routesDifferent_eq_false_iff]
  exact ⟨rfl, fun b hb => hb⟩

/-- For duplicate-free lists of equal length, one-sided containment is
already mutual containment. -/
lemma subset_of_length_eq {α : Type} [DecidableEq α] {A B : List α}
    (hA : A.Nodup) (hB : B.Nodup) (hlen : A.length = B.length)
    (hsub : ∀ b ∈ B, b ∈ A) : ∀ a ∈ A, a ∈ B := by
  have hfin : B.toFinset ⊆ A.toFinset := by
    intro x hx
    rw [List.mem_toFinset] at hx ⊢
    exact hsub x hx
  have hcard : A.toFinset.card ≤ B.toFinset.card := by
    rw [List.toFinset_card_of_nodup hA, List.toFinset_card_of_nodup hB]
    exact le_of_eq hlen
  have heq := Finset.eq_of_subset_of_card_le hfin hcard
  intro a ha
  have hmem : a ∈ A.toFinset := List.mem_toFinset.mpr ha
  rw [← heq] at hmem
  exact List.mem_toFinset.mp hmem

/-- On duplicate-free route lists the difference check is symmetric. -/
lemma routesDifferent_symm {A B : List Pfx} (hA : A.Nodup) (hB : B.Nodup) :
    routesDifferent A B = routesDifferent B A := by
  by_cases h : routesDifferent A B = false
  · rw [h]
    rw [routesDifferent_eq_false_iff] at h
    symm
    rw [routesDifferent_eq_false_iff]
    exact ⟨h.1.symm, subset_of_length_eq hA hB h.1 h.2⟩
  · rw [Bool.not_eq_false] at h
    rw [h]
    by_contra hcon
    have h2 : routesDifferent B A = false := by
      cases hrw : routesDifferent B A
      · rfl
      · rw [hrw] at hcon; exact absurd rfl hcon
    rw [routesDifferent_eq_false_iff] at h2
    have h3 : routesDifferent A B = false := by
      rw [routesDifferent_eq_false_iff]
      exact ⟨h2.1.symm, subset_of_length_eq hB hA h2.1 h2.2⟩
    rw [h] at h3
    exact Bool.true_eq_false.mp h3

/-- C6: the reconciler's difference check is symmetric on RouteSets
(duplicate-free lists), reflexively false, insensitive to reordering of an
unchanged set, and any cardinality change always reports a difference. -/
theorem routesDifferent_algebra (A B : List Pfx) (hA : A.Nodup) (hB : B.Nodup) :
    routesDifferent A B = routesDifferent B A ∧
    routesDifferent A A = false ∧
    (∀ C, A.Perm C → routesDifferent A C = false) ∧
    (A.length ≠ B.length → routesDifferent A B = true) := by
  refine ⟨routesDifferent_symm hA hB, routesDifferent_self A, ?_, ?_⟩
  · intro C hperm
    rw [routesDifferent_eq_false_iff]
    exact ⟨hperm.length_eq, fun b hb => hperm.mem_iff.mpr hb⟩
  · intro hlen
    simp [routesDifferent, hlen]

/-- Witness for C6 at two concrete duplicate-free route lists. -/
theorem routesDifferent_algebra_witness :
    routesDifferent [pfxA, pfxB] [pfxB, pfxA] =
      routesDifferent [pfxB, pfxA] [pfxA, pfxB] :=
  (routesDifferent_algebra [pfxA, pfxB] [pfxB, pfxA] (by decide) (by decide)).1

/-- C4: when the push for set B fails, `UpdateRoutes` reverts the local set
and leaves the control plane unchanged, and a subsequent reconcile with
the previously advertised set is a complete no-op (no control-plane
call). -/
theorem UpdateRoutes_rollback (pushOk : List Pfx → Bool) (s : NodeState)
    (B : List Pfx) (hfail : pushOk B = false) :
    (UpdateRoutes pushOk s B).routes = s.routes ∧
    (UpdateRoutes pushOk s B).cpRoutes = s.cpRoutes ∧
    UpdateRoutes pushOk (UpdateRoutes pushOk s B) s.routes =
      UpdateRoutes pushOk s B := by
  cases h : routesDifferent s.routes B
  · simp [UpdateRoutes, h, routesDifferent_self]
  · simp [UpdateRoutes, h, setAdvertisedRoutes, hfail, routesDifferent_self]

/-- Witness for C4: a failing push of [pfxB] over an advertised [pfxA]
leaves the local routes at [pfxA]. -/
theorem UpdateRoutes_rollback_witness :
    (UpdateRoutes (fun _ => false) ⟨[pfxA], [pfxA], 0⟩ [pfxB]).routes = [pfxA] :=
  (UpdateRoutes_rollback (fun _ => false) ⟨[pfxA], [pfxA], 0⟩ [pfxB] rfl).1

/-- C7 counterexample: with a failing control plane, two reconcile calls
with the same (changed) set make two control-plane calls, refuting the
unconditional "at most one push" reading — the failed first push rolls the
current set back, so the second call pushes again. -/
theorem reconcile_twice_failing_push_cex :
    (UpdateRoutes (fun _ => false)
        (UpdateRoutes (fun _ => false) ⟨[pfxA], [pfxA], 0⟩ [pfxB]) [pfxB]).pushCount = 2 ∧
    ¬ ((UpdateRoutes (fun _ => false)
        (UpdateRoutes (fun _ => false) ⟨[pfxA], [pfxA], 0⟩ [pfxB]) [pfxB]).pushCount ≤ 1) := by
  decide

/-- C7 as amended: an equal set is a strict no-op (no control-plane call at
all), and when the push succeeds, reconciling twice with the same set makes
at most one control-plane call. -/
theorem UpdateRoutes_noop_idempotent (pushOk : List Pfx → Bool) (s : NodeState)
    (B : List Pfx) :
    (routesDifferent s.routes B = false → UpdateRoutes pushOk s B = s) ∧
    (pushOk B = true →
      (UpdateRoutes pushOk (UpdateRoutes pushOk s B) B).pushCount ≤ s.pushCount + 1) := by
  constructor
  · intro h
    simp [UpdateRoutes, h]
  · intro hok
    cases h : routesDifferent s.routes B
    · simp [UpdateRoutes, h]
    · simp [UpdateRoutes, h, setAdvertisedRoutes, hok, routesDifferent_self]

/-- Witness for the amended C7 at a concrete state with a succeeding push. -/
theorem UpdateRoutes_noop_idempotent_witness :
    (UpdateRoutes (fun _ => true)
      (UpdateRoutes (fun _ => true) ⟨[pfxA], [pfxA], 0⟩ [pfxB]) [pfxB]).pushCount ≤ 0 + 1 :=
  (UpdateRoutes_noop_idempotent (fun _ => true) ⟨[pfxA], [pfxA], 0⟩ [pfxB]).2 rfl

/-- One health tick keeps `consecutiveFailures` at most 2. -/
lemma healthTick_cF_le (s : HealthState) (ok : Bool)
    (hs : s.consecutiveFailures ≤ 2) :
    (healthTick s ok).consecutiveFailures ≤ 2 := by
  cases ok with
  | true => simp [healthTick]
  | false =>
    by_cases hc : 3 ≤ s.consecutiveFailures + 1
    · simp [healthTick, restartDevice, hc]
    · simp [healthTick, restartDevice, hc]
      omega

/-- Any sequence of health ticks keeps `consecutiveFailures` at most 2. -/
lemma healthFoldl_cF_le (ticks : List Bool) (s : HealthState)
    (hs : s.consecutiveFailures ≤ 2) :
    (ticks.foldl healthTick s).consecutiveFailures ≤ 2 := by
  induction ticks generalizing s with
  | nil => exact hs
  | cons t ts ih => exact ih _ (healthTick_cF_le s t hs)

/-- C5: on any reachable counter state (where `consecutiveFailures ≤ 2`,
which every run maintains), a tick triggers a restart exactly when the
probe fails with the counter at 2 — that is, exactly when the counter
reaches the threshold 3 — after which it is reset to 0 unconditionally;
from a fresh monitor, a successful first probe followed by 3 failing ticks
yields exactly one restart and a zero counter before the 4th tick; and any
successful probe resets the counter with no restart. -/
theorem healthCheck_threshold (s : HealthState) (ok firstOk : Bool)
    (ticks : List Bool) (hs : s.consecutiveFailures ≤ 2) :
    ((healthTick s ok).restarts = s.restarts + 1 ↔
      (ok = false ∧ s.consecutiveFailures = 2)) ∧
    ((healthTick s ok).restarts ≠ s.restarts →
      (healthTick s ok).consecutiveFailures = 0) ∧
    (healthRun firstOk ticks).consecutiveFailures ≤ 2 ∧
    healthRun true [false, false, false] = ⟨0, 3, 1⟩ ∧
    healthTick s true = { s with consecutiveFailures := 0 } := by
  refine ⟨?_, ?_, ?_, by decide, by simp [healthTick]⟩
  · cases ok with
    | true => simp [healthTick]
    | false =>
      by_cases hc : 3 ≤ s.consecutiveFailures + 1
      · simp [healthTick, restartDevice, hc]
        omega
      · simp [healthTick, restartDevice, hc]
        omega
  · cases ok with
    | true => simp [healthTick]
    | false =>
      by_cases hc : 3 ≤ s.consecutiveFailures + 1
      · simp [healthTick, restartDevice, hc]
      · simp [healthTick, restartDevice, hc]
  · apply healthFoldl_cF_le
    cases firstOk <;> simp [healthFirstProbe, initialHealth]

/-- Witness for C5: three consecutive failing ticks from a fresh monitor
give exactly one restart and a reset counter. -/
theorem healthCheck_threshold_witness :
    healthRun true [false, false, false] = ⟨0, 3, 1⟩ :=
  (healthCheck_threshold ⟨2, 2, 0⟩ false true [false, false, false] (by decide)).2.2.2.1

/-- A cycle in which every domain fails contributes no addresses. -/
lemma resolvedAddrs_all_fail (resolve : Resolver) (domains : List String)
    (hfail : ∀ d ∈ domains, resolve d = .error ()) :
    resolvedAddrs resolve domains = [] := by
  have key : ∀ (ds : List String) (acc : List Addr),
      (∀ d ∈ ds, resolve d = .error ()) →
      ds.foldl (fun acc d =>
        match resolve d with
        | .error _ => acc
        | .ok ips => ips.foldl insertAddr acc) acc = acc := by
    intro ds
    induction ds with
    | nil => intro acc _; rfl
    | cons d ds ih =>
      intro acc h
      simp only [List.foldl_cons]
      rw [h d (by simp)]
      exact ih acc (fun x hx => h x (by simp [hx]))
  exact key domains [] hfail

/-- C1 as amended: when every domain in a cycle fails to resolve, the
per-domain failures are logged and skipped, `resolveDomains` still returns
success with an empty prefix list (its error result is unreachable), and
`resolveAndUpdate` therefore delivers the empty RouteSet to the consumer
rather than retaining the previous one. -/
theorem resolve_total_failure (resolve : Resolver) (domains : List String)
    (hfail : ∀ d ∈ domains, resolve d = .error ()) :
    resolveDomains resolve domains = .ok [] ∧
    ∀ (σ : Type) (updateFunc : List Pfx → σ → σ) (s : σ),
      resolveAndUpdate resolve domains updateFunc s = updateFunc [] s := by
  have h1 : resolveDomains resolve domains = .ok [] := by
    simp [resolveDomains, resolvedAddrs_all_fail resolve domains hfail]
  exact ⟨h1, fun σ updateFunc s => by simp [resolveAndUpdate, h1]⟩

/-- Witness for the amended C1 with a single failing domain. -/
theorem resolve_total_failure_witness :
    resolveDomains (fun _ => .error ()) ["a"] = .ok [] :=
  (resolve_total_failure (fun _ => .error ()) ["a"] (fun _ _ => rfl)).1

/-- C1 counterexample: with one domain that fails to resolve, a previously
advertised non-empty set [pfxA], and a control plane that accepts pushes,
the cycle replaces the advertised set with the empty set and pushes it —
the preceding RouteSet is not retained. -/
theorem total_failure_pushes_empty_cex :
    (resolveAndUpdate (fun _ => .error ()) ["a"]
      (fun pfxs s => UpdateRoutes (fun _ => true) s pfxs)
      (⟨[pfxA], [pfxA], 0⟩ : NodeState)).routes = [] ∧
    (resolveAndUpdate (fun _ => .error ()) ["a"]
      (fun pfxs s => UpdateRoutes (fun _ => true) s pfxs)
      (⟨[pfxA], [pfxA], 0⟩ : NodeState)).routes ≠ [pfxA] ∧
    (resolveAndUpdate (fun _ => .error ()) ["a"]
      (fun pfxs s => UpdateRoutes (fun _ => true) s pfxs)
      (⟨[pfxA], [pfxA], 0⟩ : NodeState)).cpRoutes = [] ∧
    (resolveAndUpdate (fun _ => .error ()) ["a"]
      (fun pfxs s => UpdateRoutes (fun _ => true) s pfxs)
      (⟨[pfxA], [pfxA], 0⟩ : NodeState)).pushCount = 1 := by
  decide

/-- Inserting into the deduplicating accumulator preserves freedom from
duplicates. -/
lemma insertAddr_nodup (acc : List Addr) (a : Addr) (h : acc.Nodup) :
    (insertAddr acc a).Nodup := by
  unfold insertAddr
  split
  · exact h
  · rename_i hc
    have hmem : a ∉ acc := by
      intro hmem
      exact hc (List.elem_eq_true_of_mem hmem)
    rw [List.nodup_append]
    refine ⟨h, List.nodup_singleton a, ?_⟩
    simp [List.Disjoint]
    intro x hx hxa
    exact hmem (hxa ▸ hx)

/-- Folding a lookup result into the accumulator preserves freedom from
duplicates. -/
lemma foldl_insertAddr_nodup (ips : List Addr) (acc : List Addr)
    (h : acc.Nodup) : (ips.foldl insertAddr acc).Nodup := by
  induction ips generalizing acc with
  | nil => exact h
  | cons ip ips ih => exact ih _ (insertAddr_nodup acc ip h)

/-- The addresses gathered in a resolution cycle are duplicate-free. -/
lemma resolvedAddrs_nodup (resolve : Resolver) (domains : List String) :
    (resolvedAddrs resolve domains).Nodup := by
  have key : ∀ (ds : List String) (acc : List Addr), acc.Nodup →
      (ds.foldl (fun acc d =>
        match resolve d with
        | .error _ => acc
        | .ok ips => ips.foldl insertAddr acc) acc).Nodup := by
    intro ds
    induction ds with
    | nil => intro acc h; exact h
    | cons d ds ih =>
      intro acc h
      simp only [List.foldl_cons]
      cases resolve d with
      | error e => exact ih acc h
      | ok ips => exact ih _ (foldl_insertAddr_nodup ips acc h)
  exact key domains [] List.nodup_nil

/-- C8: a single failing domain is skipped without aborting the cycle or
dropping other results; the delivered prefixes are deduplicated and carry
a full-width mask (32 for v4, 128 for v6); and in the concrete scenario —
domain a fails, domain b resolves to one v4 address — the result is
exactly that address as a /32, not empty and not an error. -/
theorem resolveDomains_partial_failure (resolve : Resolver)
    (ds1 ds2 : List String) (d a b : String) (ip : Addr)
    (domains : List String)
    (hd : resolve d = .error ())
    (ha : resolve a = .error ()) (hb : resolve b = .ok [ip])
    (h4 : ip.is4 = true) :
    resolveDomains resolve (ds1 ++ d :: ds2) = resolveDomains resolve (ds1 ++ ds2) ∧
    (∃ l, resolveDomains resolve domains = .ok l ∧ l.Nodup ∧
      ∀ pf ∈ l, (pf.addr.is4 = true → pf.bits = 32) ∧
                (pf.addr.is4 = false → pf.bits = 128)) ∧
    resolveDomains resolve [a, b] = .ok [Pfx.mk ip 32] := by
  refine ⟨?_, ?_, ?_⟩
  · simp only [resolveDomains, resolvedAddrs, List.foldl_append, List.foldl_cons]
    rw [hd]
  · refine ⟨_, rfl, ?_, ?_⟩
    · apply List.Nodup.map_on ?_ (resolvedAddrs_nodup resolve domains)
      intro x _ y _ hxy
      by_cases hx : x.is4 = true <;> by_cases hy : y.is4 = true <;>
        simp [hx, hy] at hxy <;> exact hxy
    · intro pf hpf
      simp only [List.mem_map] at hpf
      obtain ⟨x, _, hx⟩ := hpf
      by_cases h : x.is4 = true
      · subst hx; simp [h]
      · subst hx
        simp only [Bool.not_eq_true] at h
        simp [h]
  · simp [resolveDomains, resolvedAddrs, ha, hb, insertAddr, h4]

/-- Witness for C8: domain a fails, domain b resolves to one address, and
the delivered set is exactly that address as a /32. -/
theorem resolveDomains_partial_failure_witness :
    resolveDomains (fun d => if d = "b" then .ok [⟨true, 5⟩] else .error ()) ["a", "b"]
      = .ok [Pfx.mk ⟨true, 5⟩ 32] :=
  (resolveDomains_partial_failure (fun d => if d = "b" then .ok [⟨true, 5⟩] else .error ())
    [] [] "x" "a" "b" ⟨true, 5⟩ [] rfl rfl rfl rfl).2.2

/-- C2 counterexample: a run in which the server-to-client pump finishes at
time 10 while the client-to-server pump never finishes — the handler
returns at time 10, although the spec's reading (both pumps, else timeout)
predicts 300. The relay does not wait for both pumps. -/
theorem relay_waits_only_second_pump_cex :
    relayReturnTime ⟨true, none, some 10⟩ = 10 ∧
    relayReturnTimeSpec ⟨true, none, some 10⟩ = idleTimeout ∧
    relayReturnTime ⟨true, none, some 10⟩ ≠ relayReturnTimeSpec ⟨true, none, some 10⟩ := by
  decide

/-- C2 as amended: the relay terminates when the server-to-client
(outbound-to-inbound) pump completes or when the 5-minute timer elapses
first — independent of the client-to-server pump — and on the timeout path
both connections are forcibly closed (and then closed again by the
deferred closes). -/
theorem relay_termination (r : RelayRun) (hd : r.dialOk = true) :
    relayReturnTime r = min (r.t2.getD idleTimeout) idleTimeout ∧
    (∀ u : Option Nat, relayReturnTime { r with t1 := u } = relayReturnTime r) ∧
    (relayTimedOut r = true →
      relayCloses r = [ConnSide.client, ConnSide.server,
                       ConnSide.server, ConnSide.client]) := by
  refine ⟨?_, fun u => rfl, fun ht => by simp [relayCloses, hd, ht]⟩
  cases h : r.t2 <;> simp [relayReturnTime, h]

/-- Witness for the amended C2 at a concrete timed-out run. -/
theorem relay_termination_witness :
    relayCloses ⟨true, some 5, some 400⟩ =
      [ConnSide.client, ConnSide.server, ConnSide.server, ConnSide.client] :=
  (relay_termination ⟨true, some 5, some 400⟩ rfl).2.2 (by decide)

/-- C3 counterexample: on the idle-timeout path the inbound connection is
closed twice (explicit close plus deferred close), not exactly once. -/
theorem relay_double_close_cex :
    (relayCloses ⟨true, none, none⟩).count ConnSide.client = 2 ∧
    ¬ ((relayCloses ⟨true, none, none⟩).count ConnSide.client = 1) := by
  decide

/-- C3 as amended: on dial failure only the inbound connection is closed
and nothing else happens; each connection is always closed at least once
(the outbound one once dialed); on the normal path each is closed exactly
once, while on the idle-timeout path each is closed twice. -/
theorem relay_close_paths (r : RelayRun) :
    (r.dialOk = false → relayCloses r = [ConnSide.client]) ∧
    1 ≤ (relayCloses r).count ConnSide.client ∧
    (r.dialOk = true → 1 ≤ (relayCloses r).count ConnSide.server) ∧
    (r.dialOk = true → relayTimedOut r = false →
      (relayCloses r).count ConnSide.client = 1 ∧
      (relayCloses r).count ConnSide.server = 1) ∧
    (r.dialOk = true → relayTimedOut r = true →
      (relayCloses r).count ConnSide.client = 2 ∧
      (relayCloses r).count ConnSide.server = 2) := by
  cases hd : r.dialOk <;> cases ht : relayTimedOut r <;>
    simp [relayCloses, hd, ht]

/-- Witness for the amended C3 at a concrete dial-failure run. -/
theorem relay_close_paths_witness :
    relayCloses ⟨false, none, none⟩ = [ConnSide.client] :=
  (relay_close_paths ⟨false, none, none⟩).1 rfl

/-- C9: the health probe succeeds exactly when the request is built, the
HTTP call completes, and the response status is exactly 200 or 204; every
other status (201 included) and every error counts as failure. -/
theorem checkConnectivity_iff (reqOk : Bool) (res : Except Unit Nat) :
    checkConnectivity reqOk res = true ↔
      (reqOk = true ∧ ∃ code, res = .ok code ∧ (code = 200 ∨ code = 204)) := by
  cases reqOk with
  | false => simp [checkConnectivity]
  | true =>
    cases res with
    | error e => simp [checkConnectivity]
    | ok code => simp [checkConnectivity, or_comm]

/-- Binding a successful Except value reduces to applying the
continuation. -/
lemma exceptBind_ok {ε α β : Type} (a : α) (f : α → Except ε β) :
    (Except.ok (ε := ε) a >>= f) = f a := rfl

/-- Entries that are blank after trimming contribute nothing to the
accumulated interface addresses. -/
lemma ifaceFold_blank (pp : Str → Option Pfx) (pa : Str → Option Addr)
    (es : List Str) (acc : List Addr) (h : ∀ e ∈ es, trimSpace e = []) :
    es.foldlM (ifaceEntryStep pp pa) acc = Except.ok acc := by
  induction es generalizing acc with
  | nil => rfl
  | cons e es ih =>
    have he := h e (by simp)
    simp only [List.foldlM_cons, ifaceEntryStep, he, if_pos rfl, exceptBind_ok]
    exact ih acc (fun x hx => h x (by simp [hx]))

/-- C10: the interface-address parser returns the single default 10.0.0.2
with no error for an empty or all-blank configuration, accepts a prefix
entry keeping only its address, and accepts a bare address entry when
prefix parsing fails. -/
theorem parseInterfaceAddresses_props (pp : Str → Option Pfx)
    (pa : Str → Option Addr) (address entry : Str) :
    parseInterfaceAddresses pp pa [] = .ok [defaultIfaceAddr] ∧
    ((∀ e ∈ splitComma address, trimSpace e = []) →
      parseInterfaceAddresses pp pa address = .ok [defaultIfaceAddr]) ∧
    (∀ p : Pfx, splitComma entry = [entry] → trimSpace entry = entry →
      entry ≠ [] → pp entry = some p →
      parseInterfaceAddresses pp pa entry = .ok [p.addr]) ∧
    (∀ a : Addr, splitComma entry = [entry] → trimSpace entry = entry →
      entry ≠ [] → pp entry = none → pa entry = some a →
      parseInterfaceAddresses pp pa entry = .ok [a]) := by
  refine ⟨rfl, ?_, ?_, ?_⟩
  · intro h
    by_cases haddr : address = []
    · subst haddr; rfl
    · simp only [parseInterfaceAddresses, if_pos haddr]
      rw [ifaceFold_blank pp pa _ [] h]
      rfl
  · intro p hsplit htrim hne hpp
    simp only [parseInterfaceAddresses, if_pos hne, hsplit]
    simp only [List.foldlM_cons, List.foldlM_nil, ifaceEntryStep, htrim,
      if_neg hne, hpp, exceptBind_ok]
    rfl
  · intro a hsplit htrim hne hpp hpa
    simp only [parseInterfaceAddresses, if_pos hne, hsplit]
    simp only [List.foldlM_cons, List.foldlM_nil, ifaceEntryStep, htrim,
      if_neg hne, hpp, hpa, exceptBind_ok]
    rfl

/-- Witness for C10: a single prefix-shaped entry yields only the prefix's
address. -/
theorem parseInterfaceAddresses_props_witness :
    parseInterfaceAddresses (fun s => if s = ['p'] then some pfxA else none)
      (fun _ => none) ['p'] = .ok [pfxA.addr] :=
  (parseInterfaceAddresses_props (fun s => if s = ['p'] then some pfxA else none)
    (fun _ => none) [] ['p']).2.2.1 pfxA (by decide) (by decide) (by decide) rfl
